import Mathlib

/-!
Verification development for the chat streaming listener of a keybase bot
client library (src/src/chat-client/index.ts).

The embedding models the private method Chat._chatListen and its inner
line handlers:
  - building of the argument list passed to the spawned process;
  - the stdout line handler (named onLine in the source), which decodes a
    line, routes error-shaped lines and parse failures to the optional
    onError callback, applies the self-origin filter and invokes onMessage;
  - the stderr line handler, which only logs;
  - the lifecycle event handlers on the child process, which only log.

External collaborators (JSON.parse composed with formatAPIObjectOutput,
JSON.stringify composed with formatAPIObjectInput) are passed in as
function parameters: the source delegates to them and never inspects
their internals.

Callbacks may throw: a user callback is modelled as returning
Option String, where some e models a synchronously thrown error e.
Effects of a handler are recorded as an ordered list of ListenEffect
values; an error escaping the handler uncaught is returned separately.
-/

namespace KeybaseBot

/-- Sender identity carried by a message notification
(msg.sender in the wire payload, after field-name conversion). -/
structure Sender where
  username : String
  deviceName : String
deriving DecidableEq, Repr

/-- The unwrapped message payload delivered to onMessage
(the msg field of a decoded notification). -/
structure MessageSummary where
  sender : Sender
  body : String
deriving DecidableEq, Repr

/-- A decoded notification object. The source checks
messageObject.hasOwnProperty with key error; presence of the error
field is modelled by the Option. -/
structure MessageNotification where
  error : Option String
  msg : MessageSummary
deriving DecidableEq, Repr

/-- Outcome of decoding one stdout line: JSON.parse may throw (parse
failure carrying the thrown error message), or produce a decoded
notification object. -/
inductive DecodedLine where
  | parseFailure (e : String)
  | decoded (n : MessageNotification)
deriving DecidableEq, Repr

/-- ListenOptions from the source types: both fields optional booleans. -/
structure ListenOptions where
  hideExploding : Option Bool
  showLocal : Option Bool
deriving DecidableEq, Repr

/-- A chat channel descriptor. Its contents are irrelevant to the core:
the listener only serializes it through an external collaborator. -/
structure ChatChannel where
  name : String
deriving DecidableEq, Repr

/-- Observable effects emitted by the listener's handlers, in order:
debug-log lines (info and error severity) and invocations of the
user-supplied onMessage / onError callbacks. -/
inductive ListenEffect where
  | logInfo (s : String)
  | logError (s : String)
  | callMessage (m : MessageSummary)
  | callError (e : String)
deriving DecidableEq, Repr

/-- Whether an effect is an invocation of a user callback
(as opposed to diagnostic logging). -/
def isCallbackEffect : ListenEffect → Bool
  | .callMessage _ => true
  | .callError _ => true
  | _ => false

/-- JavaScript truthiness of a value typed void or string:
undefined and the empty string are falsy. -/
def jsTruthyStr : Option String → Bool
  | none => false
  | some s => s != ""

/-- Truthiness of the expression options and options.showLocal in the
stdout line handler: options must be present and showLocal must be the
boolean true. -/
def showLocalTruthy : Option ListenOptions → Bool
  | none => false
  | some o => o.showLocal == some true

/-- Model of the JavaScript String.prototype.toLowerCase call applied to
the session username in the source: each character is lowered
individually (ASCII model of the case mapping). -/
def toLowerCase (s : String) : String := String.mk (s.data.map Char.toLower)

/-- The acceptance condition of the stdout line handler for a decoded
success notification, translated from the source condition:
(options and options.showLocal) or (this.username and this.devicename
and (sender.username strictly differs from this.username.toLowerCase()
or sender.deviceName strictly differs from this.devicename)). -/
def acceptMessage (options : Option ListenOptions)
    (username devicename : Option String) (m : MessageSummary) : Bool :=
  showLocalTruthy options ||
    (jsTruthyStr username && jsTruthyStr devicename &&
      (m.sender.username != toLowerCase (username.getD "") ||
        m.sender.deviceName != devicename.getD ""))

/-- The catch block of the stdout line handler: if onError is supplied it
is invoked with the caught error (and may itself throw, which then
escapes the handler); otherwise the error is dropped. Returns the
effects of the catch block and the error escaping uncaught, if any. -/
def runCatch (onError : Option (String → Option String)) (e : String) :
    List ListenEffect × Option String :=
  match onError with
  | none => ([], none)
  | some f =>
    match f e with
    | none => ([.callError e], none)
    | some e2 => ([.callError e], some e2)

/-- The stdout line handler (onLine in the source). It first logs the raw
line, then inside try: decodes the line (decode models JSON.parse
composed with formatAPIObjectOutput); a line whose object has an error
field throws that error; otherwise, if the acceptance condition holds,
onMessage is invoked with the unwrapped msg payload (and may throw).
Any error thrown in the try block reaches the catch block. Returns the
ordered effects and the error escaping the handler uncaught, if any. -/
def onLine (decode : String → DecodedLine) (options : Option ListenOptions)
    (username devicename : Option String)
    (onMessage : MessageSummary → Option String)
    (onError : Option (String → Option String))
    (line : String) : List ListenEffect × Option String :=
  let logE : ListenEffect := .logInfo ("stdout from listener: " ++ line)
  match decode line with
  | .parseFailure e =>
    let c := runCatch onError e
    (logE :: c.1, c.2)
  | .decoded n =>
    match n.error with
    | some e =>
      let c := runCatch onError e
      (logE :: c.1, c.2)
    | none =>
      if acceptMessage options username devicename n.msg then
        match onMessage n.msg with
        | none => ([logE, .callMessage n.msg], none)
        | some e =>
          let c := runCatch onError e
          (logE :: .callMessage n.msg :: c.1, c.2)
      else
        ([logE], none)

/-- Sequential processing of the stream of stdout lines: the line reader
fires the handler once per line, in order; an error escaping a handler
uncaught crashes the event loop, so no further line is processed. -/
def processLines (decode : String → DecodedLine)
    (options : Option ListenOptions) (username devicename : Option String)
    (onMessage : MessageSummary → Option String)
    (onError : Option (String → Option String)) :
    List String → List ListenEffect
  | [] => []
  | l :: ls =>
    let r := onLine decode options username devicename onMessage onError l
    match r.2 with
    | some _ => r.1
    | none =>
      r.1 ++ processLines decode options username devicename onMessage onError ls

/-- The argument list built by Chat._chatListen for the spawned process,
translated statement by statement from the source: start from the base
listen command, unshift the home option when this.homeDir is truthy,
push the hide-exploding flag unless options.hideExploding is explicitly
false, push the local flag when options.showLocal is exactly true, and
push the channel filter when a channel is supplied. The serializer
(JSON.stringify composed with formatAPIObjectInput) is an external
collaborator passed as a parameter. -/
def listenArgs (homeDir : Option String) (options : Option ListenOptions)
    (channel : Option ChatChannel) (serialize : ChatChannel → String) :
    List String :=
  let args : List String := ["chat", "api-listen"]
  let args :=
    if jsTruthyStr homeDir then ["--home", homeDir.getD ""] ++ args else args
  let args :=
    match options with
    | none => args ++ ["--hide-exploding"]
    | some o =>
      if o.hideExploding != some false then args ++ ["--hide-exploding"]
      else args
  let args :=
    match options with
    | none => args
    | some o => if o.showLocal == some true then args ++ ["--local"] else args
  match channel with
  | none => args
  | some c => args ++ ["--filter-channel", serialize c]

/-- The result of setting up a listener: the argument list of the spawned
process and the stdout line handler closure. -/
structure ListenSetup where
  args : List String
  handler : String → List ListenEffect × Option String

/-- Chat._chatListen restricted to the parts that determine observable
behaviour: it builds the process arguments and installs the stdout line
handler. The channel is consumed only by listenArgs; the handler closure
captures options, the session identity and the callbacks. -/
def chatListen (homeDir : Option String)
    (username devicename : Option String)
    (decode : String → DecodedLine) (serialize : ChatChannel → String)
    (onMessage : MessageSummary → Option String)
    (onError : Option (String → Option String))
    (channel : Option ChatChannel) (options : Option ListenOptions) :
    ListenSetup where
  args := listenArgs homeDir options channel serialize
  handler := onLine decode options username devicename onMessage onError

/-- The stderr line handler installed by Chat._chatListen: every stderr
line is forwarded to the admin debug logger at error severity, and
nothing else happens. -/
def stderrLineHandler (line : String) : List ListenEffect :=
  [.logError ("stderr from listener: " ++ line)]

/-- Lifecycle events of the spawned child process for which
Chat._chatListen installs handlers. -/
inductive LifecycleEvent where
  | procError (message : String)
  | exit
  | close
  | disconnect
deriving DecidableEq, Repr

/-- The listener-relevant state of the client: the registry of spawned
processes (identified abstractly) and the captured filter criteria. -/
structure ListenerState where
  spawnedProcesses : List Nat
  options : Option ListenOptions
  username : Option String
  devicename : Option String
deriving DecidableEq, Repr

/-- The handler Chat._chatListen attaches for one lifecycle event of the
child process: each branch only calls the admin debug logger and
returns, leaving the client state untouched. -/
def lifecycleHandler (s : ListenerState) (e : LifecycleEvent) :
    ListenerState × List ListenEffect :=
  match e with
  | .procError m => (s, [.logError ("got listen error " ++ m)])
  | .exit => (s, [.logInfo "got listen exit"])
  | .close => (s, [.logInfo "got listen close"])
  | .disconnect => (s, [.logInfo "got listen disconnect"])

/-- Folding the lifecycle handlers over a sequence of lifecycle events,
threading the client state and collecting the emitted effects. -/
def processLifecycle (s : ListenerState) :
    List LifecycleEvent → ListenerState × List ListenEffect
  | [] => (s, [])
  | e :: es =>
    let r := lifecycleHandler s e
    let rest := processLifecycle r.1 es
    (rest.1, r.2 ++ rest.2)

/-- Spec-side reading of when the hide-exploding flag is requested:
hideExploding not explicitly false, defaulting to true. -/
def hideExplodingSpec : Option ListenOptions → Bool
  | none => true
  | some o => !(o.hideExploding == some false)

/-- Spec-side reading of when the local flag is requested:
showLocal supplied as exactly true. -/
def showLocalSpec : Option ListenOptions → Bool
  | none => false
  | some o => o.showLocal == some true

theorem lifecycleHandler_fst (s : ListenerState) (e : LifecycleEvent) :
    (lifecycleHandler s e).1 = s := by
  cases e <;> rfl

theorem lifecycleHandler_logs_only (s : ListenerState) (e : LifecycleEvent) :
    (lifecycleHandler s e).2.all (fun x => !isCallbackEffect x) = true := by
  cases e <;> rfl

theorem processLifecycle_fst (s : ListenerState) (evs : List LifecycleEvent) :
    (processLifecycle s evs).1 = s := by
  induction evs generalizing s with
  | nil => rfl
  | cons e es ih =>
    simp only [processLifecycle]
    rw [lifecycleHandler_fst]
    exact ih s

theorem runCatch_snd_none (onError : Option (String → Option String))
    (e : String) (hE : ∀ f x, onError = some f → f x = none) :
    runCatch onError e = (if onError.isSome then [ListenEffect.callError e] else [], none) := by
  cases hoe : onError with
  | none => rfl
  | some f => simp [runCatch, hE f e hoe]

theorem onLine_snd_none (decode : String → DecodedLine)
    (options : Option ListenOptions) (u d : Option String)
    (onMessage : MessageSummary → Option String)
    (onError : Option (String → Option String)) (line : String)
    (hM : ∀ m, onMessage m = none)
    (hE : ∀ f x, onError = some f → f x = none) :
    (onLine decode options u d onMessage onError line).2 = none := by
  unfold onLine
  cases hdl : decode line with
  | parseFailure e => simp [runCatch_snd_none onError e hE]
  | decoded n =>
    cases hne : n.error with
    | some e => simp [hne, runCatch_snd_none onError e hE]
    | none =>
      by_cases hacc : acceptMessage options u d n.msg
      · simp [hne, hacc, hM n.msg]
      · simp [hne, hacc]

theorem processLines_append (decode : String → DecodedLine)
    (options : Option ListenOptions) (u d : Option String)
    (onMessage : MessageSummary → Option String)
    (onError : Option (String → Option String)) (xs ys : List String)
    (hM : ∀ m, onMessage m = none)
    (hE : ∀ f x, onError = some f → f x = none) :
    processLines decode options u d onMessage onError (xs ++ ys)
      = processLines decode options u d onMessage onError xs
        ++ processLines decode options u d onMessage onError ys := by
  induction xs with
  | nil => rfl
  | cons l ls ih =>
    simp only [List.cons_append, processLines]
    rw [onLine_snd_none decode options u d onMessage onError l hM hE]
    simp [ih]

theorem onLine_error_shaped (decode : String → DecodedLine)
    (options : Option ListenOptions) (u d : Option String)
    (onMessage : MessageSummary → Option String)
    (f : String → Option String) (line e : String)
    (hk : decode line = DecodedLine.parseFailure e ∨
      ∃ n, decode line = DecodedLine.decoded n ∧ n.error = some e)
    (hf : f e = none) :
    onLine decode options u d onMessage (some f) line
      = ([ListenEffect.logInfo ("stdout from listener: " ++ line),
          ListenEffect.callError e], none) := by
  have hrc : runCatch (some f) e = ([ListenEffect.callError e], none) := by
    simp [runCatch, hf]
  rcases hk with hpf | ⟨n, hdl, hne⟩
  · simp [onLine, hpf, hrc]
  · simp [onLine, hdl, hne, hrc]

/-- C5: for every combination of home directory, options and optional
channel, the listener builds the process argument list as the home
prefix (exactly when a home override is configured), then the base
listen command, then the hide-exploding flag exactly when hideExploding
is not explicitly false, then the local flag exactly when showLocal is
true, then the serialized channel filter exactly when a channel is
supplied. -/
theorem listenArgs_shape (homeDir : Option String)
    (options : Option ListenOptions) (channel : Option ChatChannel)
    (serialize : ChatChannel → String) :
    listenArgs homeDir options channel serialize
      = (if jsTruthyStr homeDir then ["--home", homeDir.getD ""] else [])
        ++ ["chat", "api-listen"]
        ++ (if hideExplodingSpec options then ["--hide-exploding"] else [])
        ++ (if showLocalSpec options then ["--local"] else [])
        ++ (match channel with
            | none => []
            | some c => ["--filter-channel", serialize c]) := by
  cases options with
  | none =>
    cases channel <;>
      simp [listenArgs, hideExplodingSpec, showLocalSpec] <;>
      by_cases hh : jsTruthyStr homeDir = true <;> simp [hh]
  | some o =>
    cases channel <;>
      by_cases hh : jsTruthyStr homeDir = true <;>
      by_cases hx : o.hideExploding = some false <;>
      by_cases hl : o.showLocal = some true <;>
      simp [listenArgs, hideExplodingSpec, showLocalSpec, hh, hx, hl]

/-- C6: the per-line delivery decision does not depend on the channel
supplied at subscription time: two listener setups differing only in
the channel argument install handlers with identical behaviour on every
line; the channel is consumed only by the argument builder. -/
theorem handler_channel_independent (homeDir : Option String)
    (username devicename : Option String)
    (decode : String → DecodedLine) (serialize : ChatChannel → String)
    (onMessage : MessageSummary → Option String)
    (onError : Option (String → Option String))
    (c1 c2 : Option ChatChannel) (options : Option ListenOptions)
    (line : String) :
    (chatListen homeDir username devicename decode serialize onMessage
        onError c1 options).handler line
      = (chatListen homeDir username devicename decode serialize onMessage
          onError c2 options).handler line := rfl

/-- C7: every stderr line is forwarded only to the diagnostic logging
collaborator; whatever its content, a stderr line never produces an
onMessage or onError invocation. -/
theorem stderr_diagnostic_only (line : String) :
    stderrLineHandler line
        = [ListenEffect.logError ("stderr from listener: " ++ line)]
      ∧ (stderrLineHandler line).all (fun e => !isCallbackEffect e) = true :=
  ⟨rfl, rfl⟩

/-- C8: the lifecycle handlers attached for the child process's
error, exit, close and disconnect events only emit log output: for
every sequence of lifecycle events the listener state (process
registry and filter criteria) is unchanged, every emitted effect is a
log effect, and the stdout line handler determined by the state
behaves identically before and after. -/
theorem lifecycle_handlers_frame (s : ListenerState)
    (evs : List LifecycleEvent) :
    (processLifecycle s evs).1 = s
      ∧ (processLifecycle s evs).2.all (fun e => !isCallbackEffect e) = true
      ∧ ∀ (decode : String → DecodedLine)
          (onMessage : MessageSummary → Option String)
          (onError : Option (String → Option String)) (line : String),
          onLine decode (processLifecycle s evs).1.options
            (processLifecycle s evs).1.username
            (processLifecycle s evs).1.devicename onMessage onError line
          = onLine decode s.options s.username s.devicename
              onMessage onError line := by
  refine ⟨processLifecycle_fst s evs, ?_, ?_⟩
  · induction evs generalizing s with
    | nil => rfl
    | cons e es ih =>
      simp only [processLifecycle, List.all_append, Bool.and_eq_true]
      exact ⟨lifecycleHandler_logs_only s e, by
        rw [lifecycleHandler_fst]; exact ih s⟩
  · intro decode onMessage onError line
    rw [processLifecycle_fst]

/-- C9: if the session's username or devicename is unset (or empty, hence
falsy) and showLocal is not true, a decoded success notification is
silently suppressed: the stdout line handler only logs the line and
invokes neither onMessage nor onError. -/
theorem unset_identity_suppresses (decode : String → DecodedLine)
    (options : Option ListenOptions) (u d : Option String)
    (onMessage : MessageSummary → Option String)
    (onError : Option (String → Option String)) (line : String)
    (n : MessageNotification)
    (hsl : showLocalTruthy options = false)
    (hid : jsTruthyStr u = false ∨ jsTruthyStr d = false)
    (hdec : decode line = DecodedLine.decoded n) (herr : n.error = none) :
    onLine decode options u d onMessage onError line
      = ([ListenEffect.logInfo ("stdout from listener: " ++ line)], none) := by
  have hacc : acceptMessage options u d n.msg = false := by
    rcases hid with h | h <;> simp [acceptMessage, hsl, h]
  simp [onLine, hdec, herr, hacc]

theorem unset_identity_suppresses_witness :
    onLine (fun _ => DecodedLine.decoded ⟨none, ⟨⟨"bob", "x"⟩, "hi"⟩⟩)
        none none (some "y") (fun _ => none) (some fun _ => none) "L"
      = ([ListenEffect.logInfo ("stdout from listener: " ++ "L")], none) :=
  unset_identity_suppresses (fun _ => DecodedLine.decoded ⟨none, ⟨⟨"bob", "x"⟩, "hi"⟩⟩)
    none none (some "y") (fun _ => none) (some fun _ => none) "L"
    ⟨none, ⟨⟨"bob", "x"⟩, "hi"⟩⟩ rfl (Or.inl rfl) rfl rfl

/-- C10: when no onError callback is supplied, a line that fails to
decode or that carries an error field is silently discarded: the line
handler only logs and completes without an uncaught error, no user
callback is invoked for that line, and the following lines are still
processed. -/
theorem missing_onError_silent (decode : String → DecodedLine)
    (options : Option ListenOptions) (u d : Option String)
    (onMessage : MessageSummary → Option String) (line : String)
    (rest : List String) (e : String)
    (hk : decode line = DecodedLine.parseFailure e ∨
      ∃ n, decode line = DecodedLine.decoded n ∧ n.error = some e) :
    onLine decode options u d onMessage none line
        = ([ListenEffect.logInfo ("stdout from listener: " ++ line)], none)
      ∧ processLines decode options u d onMessage none (line :: rest)
        = [ListenEffect.logInfo ("stdout from listener: " ++ line)]
          ++ processLines decode options u d onMessage none rest := by
  have h1 : onLine decode options u d onMessage none line
      = ([ListenEffect.logInfo ("stdout from listener: " ++ line)], none) := by
    rcases hk with hpf | ⟨n, hdl, hne⟩
    · simp [onLine, hpf, runCatch]
    · simp [onLine, hdl, hne, runCatch]
  exact ⟨h1, by simp [processLines, h1]⟩

theorem missing_onError_silent_witness :
    onLine (fun _ => DecodedLine.parseFailure "bad") none (some "bot") (some "d1")
        (fun _ => none) none "X"
        = ([ListenEffect.logInfo ("stdout from listener: " ++ "X")], none)
      ∧ processLines (fun _ => DecodedLine.parseFailure "bad") none (some "bot")
          (some "d1") (fun _ => none) none ("X" :: ["Y"])
        = [ListenEffect.logInfo ("stdout from listener: " ++ "X")]
          ++ processLines (fun _ => DecodedLine.parseFailure "bad") none (some "bot")
              (some "d1") (fun _ => none) none ["Y"] :=
  missing_onError_silent (fun _ => DecodedLine.parseFailure "bad") none (some "bot")
    (some "d1") (fun _ => none) "X" ["Y"] "bad" (Or.inl rfl)

/-- C3: in a streamed sequence of lines where one line is malformed or
carries an error field, onError (when supplied) is invoked exactly once
for that line, the sequence is not terminated, and the surrounding
lines produce their effects in original order around it. -/
theorem errorLine_isolated (decode : String → DecodedLine)
    (options : Option ListenOptions) (u d : Option String)
    (onMessage : MessageSummary → Option String)
    (f : String → Option String) (pre post : List String) (lk e : String)
    (hM : ∀ m, onMessage m = none) (hF : ∀ s, f s = none)
    (hk : decode lk = DecodedLine.parseFailure e ∨
      ∃ n, decode lk = DecodedLine.decoded n ∧ n.error = some e) :
    processLines decode options u d onMessage (some f) (pre ++ lk :: post)
      = processLines decode options u d onMessage (some f) pre
        ++ [ListenEffect.logInfo ("stdout from listener: " ++ lk),
            ListenEffect.callError e]
        ++ processLines decode options u d onMessage (some f) post := by
  have hE : ∀ (g : String → Option String) (x : String),
      (some f : Option (String → Option String)) = some g → g x = none := by
    intro g x hg
    cases hg
    exact hF x
  rw [processLines_append decode options u d onMessage (some f) pre (lk :: post) hM hE]
  have h1 : onLine decode options u d onMessage (some f) lk
      = ([ListenEffect.logInfo ("stdout from listener: " ++ lk),
          ListenEffect.callError e], none) :=
    onLine_error_shaped decode options u d onMessage f lk e hk (hF e)
  simp [processLines, h1]

theorem errorLine_isolated_witness :
    processLines (fun _ => DecodedLine.parseFailure "bad") none (some "bot") (some "d1")
        (fun _ => none) (some fun _ => none) (["A"] ++ "X" :: ["B"])
      = processLines (fun _ => DecodedLine.parseFailure "bad") none (some "bot")
          (some "d1") (fun _ => none) (some fun _ => none) ["A"]
        ++ [ListenEffect.logInfo ("stdout from listener: " ++ "X"),
            ListenEffect.callError "bad"]
        ++ processLines (fun _ => DecodedLine.parseFailure "bad") none (some "bot")
            (some "d1") (fun _ => none) (some fun _ => none) ["B"] :=
  errorLine_isolated (fun _ => DecodedLine.parseFailure "bad") none (some "bot")
    (some "d1") (fun _ => none) (fun _ => none) ["A"] ["B"] "X" "bad"
    (fun _ => rfl) (fun _ => rfl) (Or.inl rfl)

/-- C4: for a single line decoding to a success-shaped notification whose
sender passes the self-origin comparison of the source (username
strictly different from the lowercased session username, or originating
device different), listening with default options and a set identity
invokes onMessage exactly once with the unwrapped msg payload and never
invokes onError for that line. -/
theorem default_success_delivery (decode : String → DecodedLine)
    (u d : String) (onMessage : MessageSummary → Option String)
    (onError : Option (String → Option String)) (line : String)
    (n : MessageNotification)
    (hdec : decode line = DecodedLine.decoded n) (herr : n.error = none)
    (hu : u ≠ "") (hd : d ≠ "")
    (hdiff : n.msg.sender.username ≠ toLowerCase u ∨ n.msg.sender.deviceName ≠ d)
    (hM : ∀ m, onMessage m = none) :
    onLine decode none (some u) (some d) onMessage onError line
      = ([ListenEffect.logInfo ("stdout from listener: " ++ line),
          ListenEffect.callMessage n.msg], none) := by
  have hacc : acceptMessage none (some u) (some d) n.msg = true := by
    rcases hdiff with h | h <;>
      simp [acceptMessage, showLocalTruthy, jsTruthyStr, hu, hd, h]
  simp [onLine, hdec, herr, hacc, hM n.msg]

theorem default_success_delivery_witness :
    onLine (fun _ => DecodedLine.decoded ⟨none, ⟨⟨"bob", "x"⟩, "hi"⟩⟩)
        none (some "alice") (some "y") (fun _ => none) none "L"
      = ([ListenEffect.logInfo ("stdout from listener: " ++ "L"),
          ListenEffect.callMessage ⟨⟨"bob", "x"⟩, "hi"⟩], none) :=
  default_success_delivery (fun _ => DecodedLine.decoded ⟨none, ⟨⟨"bob", "x"⟩, "hi"⟩⟩)
    "alice" "y" (fun _ => none) none "L" ⟨none, ⟨⟨"bob", "x"⟩, "hi"⟩⟩ rfl rfl
    (by decide) (by decide) (Or.inl (by decide)) (fun _ => rfl)

/-- C1, counterexample to the claim as stated: with session identity
username Bot and devicename d1, a success notification whose sender is
exactly the same pairing (username Bot, device d1) is delivered by the
line handler, although its sender username does not differ from the
session username (case-insensitively or otherwise) and its device does
not differ: the source compares the raw sender username against the
lowercased session username, which differs from the session username
itself whenever the latter has an uppercase letter. -/
theorem selfFilter_claim_counterexample :
    (⟨⟨"Bot", "d1"⟩, "hey"⟩ : MessageSummary).sender.username = "Bot"
      ∧ (⟨⟨"Bot", "d1"⟩, "hey"⟩ : MessageSummary).sender.deviceName = "d1"
      ∧ showLocalTruthy none = false
      ∧ acceptMessage none (some "Bot") (some "d1") ⟨⟨"Bot", "d1"⟩, "hey"⟩ = true
      ∧ ListenEffect.callMessage ⟨⟨"Bot", "d1"⟩, "hey"⟩ ∈
          (onLine (fun _ => DecodedLine.decoded ⟨none, ⟨⟨"Bot", "d1"⟩, "hey"⟩⟩)
            none (some "Bot") (some "d1") (fun _ => none) none "L").1 := by
  decide

/-- C1 amended: when showLocal is truthy every decoded success
notification is delivered unconditionally; otherwise, with username and
devicename both set (non-empty), onMessage is invoked if and only if
the sender username differs from the lowercased session username
(a strict comparison against the lowercase form, which is
case-insensitive only when the sender username is itself lowercase) or
the sender device name differs from the session devicename. -/
theorem selfFilter_amended (decode : String → DecodedLine)
    (options : Option ListenOptions) (u d : String)
    (onMessage : MessageSummary → Option String)
    (onError : Option (String → Option String)) (line : String)
    (n : MessageNotification)
    (hdec : decode line = DecodedLine.decoded n) (herr : n.error = none)
    (hM : ∀ m, onMessage m = none) (hu : u ≠ "") (hd : d ≠ "") :
    (showLocalTruthy options = true →
      ListenEffect.callMessage n.msg ∈
        (onLine decode options (some u) (some d) onMessage onError line).1)
    ∧ (showLocalTruthy options = false →
      (ListenEffect.callMessage n.msg ∈
          (onLine decode options (some u) (some d) onMessage onError line).1
        ↔ (n.msg.sender.username ≠ toLowerCase u
            ∨ n.msg.sender.deviceName ≠ d))) := by
  have hmem : ListenEffect.callMessage n.msg ∈
      (onLine decode options (some u) (some d) onMessage onError line).1
      ↔ acceptMessage options (some u) (some d) n.msg = true := by
    by_cases hacc : acceptMessage options (some u) (some d) n.msg = true
    · simp [onLine, hdec, herr, hacc, hM n.msg]
    · simp [onLine, hdec, herr, hacc]
  constructor
  · intro hsl
    rw [hmem]
    simp [acceptMessage, hsl]
  · intro hsl
    rw [hmem]
    simp [acceptMessage, hsl, jsTruthyStr, hu, hd]

theorem selfFilter_amended_witness :
    (showLocalTruthy none = true →
      ListenEffect.callMessage ⟨⟨"bob", "x"⟩, "hi"⟩ ∈
        (onLine (fun _ => DecodedLine.decoded ⟨none, ⟨⟨"bob", "x"⟩, "hi"⟩⟩)
          none (some "bot") (some "d1") (fun _ => none) none "L").1)
    ∧ (showLocalTruthy none = false →
      (ListenEffect.callMessage ⟨⟨"bob", "x"⟩, "hi"⟩ ∈
          (onLine (fun _ => DecodedLine.decoded ⟨none, ⟨⟨"bob", "x"⟩, "hi"⟩⟩)
            none (some "bot") (some "d1") (fun _ => none) none "L").1
        ↔ (("bob" : String) ≠ toLowerCase "bot" ∨ ("x" : String) ≠ "d1"))) :=
  selfFilter_amended (fun _ => DecodedLine.decoded ⟨none, ⟨⟨"bob", "x"⟩, "hi"⟩⟩)
    none "bot" "d1" (fun _ => none) none "L" ⟨none, ⟨⟨"bob", "x"⟩, "hi"⟩⟩
    rfl rfl (fun _ => rfl) (by decide) (by decide)

/-- C2, counterexample to the claim as stated: the stdout line handler
wraps the onMessage invocation in its try block, so an error thrown
synchronously inside onMessage is caught by the handler (nothing
escapes uncaught) and, when no onError callback was supplied, is
suppressed entirely; the callback was genuinely invoked and threw. -/
theorem callbackThrow_claim_counterexample :
    (onLine (fun _ => DecodedLine.decoded ⟨none, ⟨⟨"bob", "x"⟩, "hi"⟩⟩)
        none (some "alice") (some "y") (fun _ => some "boom") none "L").2 = none
      ∧ ListenEffect.callError "boom" ∉
          (onLine (fun _ => DecodedLine.decoded ⟨none, ⟨⟨"bob", "x"⟩, "hi"⟩⟩)
            none (some "alice") (some "y") (fun _ => some "boom") none "L").1
      ∧ ListenEffect.callMessage ⟨⟨"bob", "x"⟩, "hi"⟩ ∈
          (onLine (fun _ => DecodedLine.decoded ⟨none, ⟨⟨"bob", "x"⟩, "hi"⟩⟩)
            none (some "alice") (some "y") (fun _ => some "boom") none "L").1 := by
  decide

/-- C2 amended: an error thrown synchronously inside onMessage while a
line is delivered is caught by the line handler's try/catch and routed
to the onError callback when one is supplied; it does not escape the
handler, and processing of subsequent lines continues. -/
theorem callbackThrow_caught_and_routed (decode : String → DecodedLine)
    (options : Option ListenOptions) (u d : Option String) (e : String)
    (f : String → Option String) (line : String) (n : MessageNotification)
    (rest : List String)
    (hdec : decode line = DecodedLine.decoded n) (herr : n.error = none)
    (hacc : acceptMessage options u d n.msg = true) (hf : f e = none) :
    onLine decode options u d (fun _ => some e) (some f) line
        = ([ListenEffect.logInfo ("stdout from listener: " ++ line),
            ListenEffect.callMessage n.msg, ListenEffect.callError e], none)
      ∧ processLines decode options u d (fun _ => some e) (some f) (line :: rest)
        = [ListenEffect.logInfo ("stdout from listener: " ++ line),
            ListenEffect.callMessage n.msg, ListenEffect.callError e]
          ++ processLines decode options u d (fun _ => some e) (some f) rest := by
  have h1 : onLine decode options u d (fun _ => some e) (some f) line
      = ([ListenEffect.logInfo ("stdout from listener: " ++ line),
          ListenEffect.callMessage n.msg, ListenEffect.callError e], none) := by
    simp [onLine, hdec, herr, hacc, runCatch, hf]
  exact ⟨h1, by simp [processLines, h1]⟩

theorem callbackThrow_caught_and_routed_witness :
    onLine (fun _ => DecodedLine.decoded ⟨none, ⟨⟨"bob", "x"⟩, "hi"⟩⟩)
        none (some "alice") (some "y") (fun _ => some "boom") (some fun _ => none) "L"
        = ([ListenEffect.logInfo ("stdout from listener: " ++ "L"),
            ListenEffect.callMessage ⟨⟨"bob", "x"⟩, "hi"⟩,
            ListenEffect.callError "boom"], none)
      ∧ processLines (fun _ => DecodedLine.decoded ⟨none, ⟨⟨"bob", "x"⟩, "hi"⟩⟩)
          none (some "alice") (some "y") (fun _ => some "boom") (some fun _ => none)
          ("L" :: [])
        = [ListenEffect.logInfo ("stdout from listener: " ++ "L"),
            ListenEffect.callMessage ⟨⟨"bob", "x"⟩, "hi"⟩,
            ListenEffect.callError "boom"]
          ++ processLines (fun _ => DecodedLine.decoded ⟨none, ⟨⟨"bob", "x"⟩, "hi"⟩⟩)
              none (some "alice") (some "y") (fun _ => some "boom")
              (some fun _ => none) [] :=
  callbackThrow_caught_and_routed
    (fun _ => DecodedLine.decoded ⟨none, ⟨⟨"bob", "x"⟩, "hi"⟩⟩)
    none (some "alice") (some "y") "boom" (fun _ => none) "L"
    ⟨none, ⟨⟨"bob", "x"⟩, "hi"⟩⟩ [] rfl rfl (by decide) rfl

end KeybaseBot
